import Mathlib

/-!
Shallow embedding of the ticket core of the queue-management server
(routes in `src/routes/tickets`): the atomic ticket-number sequencing of
the `POST /tickets` handler, the `POST /tickets/call-next` dispatcher,
the `PATCH /tickets/:id` status update and the `DELETE /tickets/:id`
soft delete.  Row-level locking (`SELECT ... FOR UPDATE`) serializes the
transactions that touch the same sequence row or the same head-of-queue
ticket, so concurrent execution over one key or one pool is modelled as
a sequential composition of the per-request transactions, in the order
the lock manager admits them.
-/

/-- Ticket status column: `waiting | serving | done | cancelled | skipped`. -/
inductive Status where
  | waiting
  | serving
  | done
  | cancelled
  | skipped
deriving DecidableEq, Repr

/-- A row of the `tickets` table. -/
structure Ticket where
  id : Nat
  ticket_number : String
  service_id : Nat
  branch_id : Nat
  priority_level : Int
  status : Status
  counter_id : Option Nat
  served_by : Option Nat
  created_at : Nat
  called_at : Option Nat
  started_at : Option Nat
  ended_at : Option Nat
  customer_name : Option String
  customer_phone : Option String
  notes : Option String
  issued_by : Option Nat
deriving DecidableEq, Repr

/-- A row of the `services` table; `pfx` embeds the column used to build
ticket numbers (called the service "pfx string" here). -/
structure Service where
  id : Nat
  pfx : String
deriving DecidableEq, Repr

/-- A row of the `counters` table (only the columns the dispatcher reads). -/
structure Counter where
  id : Nat
  branch_id : Nat
deriving DecidableEq, Repr

/-- A row of the `ticket_sequences` table, keyed by (service, branch, date). -/
structure SeqRow where
  service_id : Nat
  branch_id : Nat
  date : Nat
  current_number : Nat
deriving DecidableEq, Repr

/-- The database state visible to the ticket routes. -/
structure DB where
  services : List Service
  counters : List Counter
  tickets : List Ticket
  sequences : List SeqRow
deriving DecidableEq, Repr

/-- Key predicate of the `ticket_sequences` unique key
`(service_id, branch_id, date)`. -/
def seqKey (sid bid d : Nat) (r : SeqRow) : Bool :=
  decide (r.service_id = sid) && decide (r.branch_id = bid) && decide (r.date = d)

/-- `INSERT INTO ticket_sequences ... VALUES (?, ?, 0, ?)
ON DUPLICATE KEY UPDATE current_number = current_number`:
an atomic insert-or-no-op on the key. -/
def ensureSeqRow (rows : List SeqRow) (sid bid d : Nat) : List SeqRow :=
  if rows.any (seqKey sid bid d) then rows
  else rows ++ [⟨sid, bid, d, 0⟩]

/-- `SELECT current_number FROM ticket_sequences WHERE ... FOR UPDATE`,
with the handler fallback `sequences[0]?.current_number || 0`. -/
def readSeq (rows : List SeqRow) (sid bid d : Nat) : Nat :=
  match rows.find? (seqKey sid bid d) with
  | some r => r.current_number
  | none => 0

/-- `UPDATE ticket_sequences SET current_number = ? WHERE ...`. -/
def writeSeq (rows : List SeqRow) (sid bid d : Nat) (n : Nat) : List SeqRow :=
  rows.map (fun r => if seqKey sid bid d r then { r with current_number := n } else r)

/-- One sequence allocation: ensure the row, read it under the row lock,
store `current + 1` and return it.  This is the body of the `POST /tickets`
transaction between the upsert and the ticket insert. -/
def allocate (rows : List SeqRow) (sid bid d : Nat) : List SeqRow × Nat :=
  let rows1 := ensureSeqRow rows sid bid d
  let next := readSeq rows1 sid bid d + 1
  (writeSeq rows1 sid bid d next, next)

/-- `String(n).padStart(3, '0')`: left-pad with zeros to a minimum width
of 3; longer strings are returned whole. -/
def padStart3 (s : String) : String :=
  String.mk (List.replicate (3 - s.length) '0') ++ s

/-- Display number `{pfx}-{String(next).padStart(3, '0')}`. -/
def formatTicketNumber (p : String) (n : Nat) : String :=
  p ++ "-" ++ padStart3 (toString n)

/-- `services[0]?.prefix || 'TKT'`: the service pfx string, falling back to
`"TKT"` when the lookup misses or the stored string is falsy (empty). -/
def lookupPrefix (services : List Service) (sid : Nat) : String :=
  match services.find? (fun s => decide (s.id = sid)) with
  | some s => if s.pfx = "" then "TKT" else s.pfx
  | none => "TKT"

/-- Body of a `POST /tickets` request. -/
structure CreateReq where
  service_id : Nat
  branch_id : Nat
  priority_level : Int
  customer_name : Option String
  customer_phone : Option String
  notes : Option String
deriving DecidableEq, Repr

/-- The ticket row inserted by `POST /tickets` (`status = 'waiting'`,
dispatch columns NULL). -/
def newTicket (req : CreateReq) (tid : Nat) (tnum : String) (iss : Option Nat)
    (now : Nat) : Ticket :=
  { id := tid
    ticket_number := tnum
    service_id := req.service_id
    branch_id := req.branch_id
    priority_level := req.priority_level
    status := Status.waiting
    counter_id := none
    served_by := none
    created_at := now
    called_at := none
    started_at := none
    ended_at := none
    customer_name := req.customer_name
    customer_phone := req.customer_phone
    notes := req.notes
    issued_by := iss }

/-- The committed `POST /tickets` transaction: resolve the pfx string,
allocate the next sequence number, format the display number and insert
the ticket row. -/
def createTicket (db : DB) (req : CreateReq) (today tid now : Nat)
    (iss : Option Nat) : DB × Ticket :=
  let p := lookupPrefix db.services req.service_id
  let alloc := allocate db.sequences req.service_id req.branch_id today
  let tnum := formatTicketNumber p alloc.2
  let t := newTicket req tid tnum iss now
  ({ db with sequences := alloc.1, tickets := db.tickets ++ [t] }, t)

/-- The `POST /tickets` transaction with fault injection on the ticket
`INSERT`: `connection.beginTransaction()` snapshots the state, and on a
failed insert `connection.rollback()` restores that snapshot, so the
handler returns no ticket and leaves the database exactly as it was;
on success `connection.commit()` publishes the full transaction. -/
def createTicketAttempt (db : DB) (req : CreateReq) (today tid now : Nat)
    (iss : Option Nat) (insertOk : Bool) : DB × Option Ticket :=
  let committed := createTicket db req today tid now iss
  if insertOk then (committed.1, some committed.2) else (db, none)

/-- Issue one ticket per `(tid, now)` pair, in order: the serialization of
concurrent `POST /tickets` transactions admitted by the sequence-row lock. -/
def createTicketsN (req : CreateReq) (today : Nat) (iss : Option Nat) :
    DB → List (Nat × Nat) → DB × List Ticket
  | db, [] => (db, [])
  | db, (tid, now) :: rest =>
    let c := createTicket db req today tid now iss
    let r := createTicketsN req today iss c.1 rest
    (r.1, c.2 :: r.2)

/-- Iterated allocation for one key: the serialization of `n` concurrent
sequence allocations on the same `(service, branch, date)` row. -/
def allocateN (sid bid d : Nat) : List SeqRow → Nat → List SeqRow × List Nat
  | rows, 0 => (rows, [])
  | rows, n + 1 =>
    let a := allocate rows sid bid d
    let r := allocateN sid bid d a.1 n
    (r.1, a.2 :: r.2)

/-- `SELECT branch_id FROM counters WHERE id = ?`: the scalar subquery of
the dispatcher; `none` when the counter row is absent (SQL NULL). -/
def counterBranch (counters : List Counter) (cid : Nat) : Option Nat :=
  (counters.find? (fun c => decide (c.id = cid))).map (fun c => c.branch_id)

/-- The dispatcher WHERE clause: `status = 'waiting'`, branch equal to the
subquery result (`= NULL` never holds), and the optional service filter. -/
def eligible (bOpt : Option Nat) (sidOpt : Option Nat) (t : Ticket) : Bool :=
  decide (t.status = Status.waiting) &&
  (match bOpt with
   | some b => decide (t.branch_id = b)
   | none => false) &&
  (match sidOpt with
   | some s => decide (t.service_id = s)
   | none => true)

/-- `u` is dispatched strictly before `t` under
`ORDER BY priority_level DESC, created_at ASC`. -/
def queueBefore (u t : Ticket) : Prop :=
  t.priority_level < u.priority_level ∨
    (u.priority_level = t.priority_level ∧ u.created_at < t.created_at)

instance (u t : Ticket) : Decidable (queueBefore u t) := by
  unfold queueBefore; infer_instance

/-- `ORDER BY priority_level DESC, created_at ASC LIMIT 1` over the
eligible rows, keeping the earliest row on full ties. -/
def selectNext : List Ticket → Option Ticket
  | [] => none
  | t :: ts =>
    match selectNext ts with
    | none => some t
    | some u => if queueBefore u t then some u else some t

/-- The waiting pool of a `(branch, service-filter)` dispatch request. -/
def pool (db : DB) (cid : Nat) (sidOpt : Option Nat) : List Ticket :=
  db.tickets.filter (eligible (counterBranch db.counters cid) sidOpt)

/-- The dispatcher `UPDATE tickets SET status = 'serving', counter_id = ?,
called_at = ?, started_at = ? WHERE id = ?`, applied to one row. -/
def dispatchUpdate (t : Ticket) (cid now : Nat) : Ticket :=
  { t with
    status := Status.serving
    counter_id := some cid
    called_at := some now
    started_at := some now }

/-- Row image of the dispatcher UPDATE: rows whose `id` matches are
dispatched, every other row is untouched. -/
def serveUpd (tid0 cid now : Nat) (u : Ticket) : Ticket :=
  if u.id = tid0 then dispatchUpdate u cid now else u

/-- The `POST /tickets/call-next` transaction: lock and select the head of
the pool; if none, commit the no-op; otherwise dispatch it to the counter
and return the updated row. -/
def callNext (db : DB) (cid : Nat) (sidOpt : Option Nat) (now : Nat) :
    DB × Option Ticket :=
  match selectNext (pool db cid sidOpt) with
  | none => (db, none)
  | some t0 =>
    ({ db with tickets := db.tickets.map (serveUpd t0.id cid now) },
     some (dispatchUpdate t0 cid now))

/-- Serialized execution of `n` call-next transactions on the same
`(counter, service-filter)` arguments, collecting each response. -/
def callNextN (cid : Nat) (sidOpt : Option Nat) (now : Nat) :
    DB → Nat → DB × List (Option Ticket)
  | db, 0 => (db, [])
  | db, n + 1 =>
    let r := callNext db cid sidOpt now
    let rest := callNextN cid sidOpt now r.1 n
    (rest.1, r.2 :: rest.2)

/-- HTTP-level outcome of the call-next handler. -/
structure CallNextResponse where
  httpStatus : Nat
  ticket : Option Ticket
  message : Option String
deriving DecidableEq, Repr

/-- The `POST /tickets/call-next` handler: 400 when `counter_id` is absent,
otherwise run the transaction; an empty queue commits and answers 200 with
`ticket: null` and the message `No tickets in queue`. -/
def callNextHandler (db : DB) (cidOpt : Option Nat) (sidOpt : Option Nat)
    (now : Nat) : DB × CallNextResponse :=
  match cidOpt with
  | none => (db, ⟨400, none, some "counter_id is required"⟩)
  | some cid =>
    match callNext db cid sidOpt now with
    | (db1, none) => (db1, ⟨200, none, some "No tickets in queue"⟩)
    | (db1, some t) => (db1, ⟨200, some t, none⟩)

/-- Body of a `PATCH /tickets/:id` request (fields present in the body). -/
structure PatchReq where
  status : Option Status
  counter_id : Option Nat
  notes : Option String
deriving DecidableEq, Repr

/-- The terminal statuses, the set `['done', 'cancelled', 'skipped']`
tested by the PATCH handler. -/
def isTerminal : Status → Bool
  | Status.done => true
  | Status.cancelled => true
  | Status.skipped => true
  | _ => false

/-- Row image of the PATCH update: the supplied status is applied
unconditionally; `serving` also stamps `started_at`, a terminal status
also stamps `ended_at` and `served_by`; then the optional `counter_id`
and `notes` assignments. -/
def applyPatch (req : PatchReq) (userId now : Nat) (t : Ticket) : Ticket :=
  let t1 :=
    match req.status with
    | none => t
    | some st =>
      if st = Status.serving then
        { t with status := st, started_at := some now }
      else if isTerminal st then
        { t with status := st, ended_at := some now, served_by := some userId }
      else
        { t with status := st }
  let t2 :=
    match req.counter_id with
    | none => t1
    | some c => { t1 with counter_id := some c }
  match req.notes with
  | none => t2
  | some nt => { t2 with notes := some nt }

/-- The `PATCH /tickets/:id` handler: 400 (`false`) when no updates are
supplied, otherwise apply the dynamic UPDATE to every row with that id. -/
def patchTicket (db : DB) (tid : Nat) (req : PatchReq) (userId now : Nat) :
    DB × Bool :=
  if req.status = none ∧ req.counter_id = none ∧ req.notes = none then
    (db, false)
  else
    ({ db with
        tickets := db.tickets.map
          (fun t => if t.id = tid then applyPatch req userId now t else t) },
     true)

/-- The `DELETE /tickets/:id` handler: 404 (`false`) when no row has that
id, otherwise the soft delete
`UPDATE tickets SET status = 'cancelled', ended_at = NOW() WHERE id = ?`. -/
def deleteTicket (db : DB) (tid : Nat) (now : Nat) : DB × Bool :=
  if db.tickets.any (fun t => decide (t.id = tid)) then
    ({ db with
        tickets := db.tickets.map
          (fun t =>
            if t.id = tid then
              { t with status := Status.cancelled, ended_at := some now }
            else t) },
     true)
  else (db, false)

/-- Ids of a ticket list. -/
def ticketIds (l : List Ticket) : List Nat := l.map (fun t => t.id)

/-- Number of `serving` rows. -/
def servingCount (db : DB) : Nat :=
  db.tickets.countP (fun t => decide (t.status = Status.serving))

/-- Ids of the tickets returned by a batch of call-next responses. -/
def resultIds (rs : List (Option Ticket)) : List Nat :=
  rs.filterMap (fun r => r.map (fun t => t.id))

/-- A fresh waiting ticket used in concrete scenarios. -/
def mkWaiting (i : Nat) (pri : Int) (created : Nat) : Ticket :=
  { id := i
    ticket_number := ""
    service_id := 5
    branch_id := 8
    priority_level := pri
    status := Status.waiting
    counter_id := none
    served_by := none
    created_at := created
    called_at := none
    started_at := none
    ended_at := none
    customer_name := none
    customer_phone := none
    notes := none
    issued_by := none }

/-- Counter 1 of branch 8. -/
def exCounter : Counter := ⟨1, 8⟩

/-- Branch 8 with waiting tickets of priorities 0, 0, 2 created at 1 < 2 < 3. -/
def exDb3 : DB :=
  ⟨[], [exCounter], [mkWaiting 1 0 1, mkWaiting 2 0 2, mkWaiting 3 2 3], []⟩

/-- A single ticket already in the terminal status done. -/
def exDone : Ticket := { mkWaiting 1 0 1 with status := Status.done }

/-- Branch 8 holding only the done ticket. -/
def exDbDone : DB := ⟨[], [exCounter], [exDone], []⟩

/-- Branch 8 with an empty ticket table. -/
def exDbEmptyQ : DB := ⟨[], [exCounter], [], []⟩

/-- A waiting ticket but no counter rows at all. -/
def exDbNoCtr : DB := ⟨[], [], [mkWaiting 1 0 1], []⟩

/-- Branch 8 with exactly one waiting ticket. -/
def exDb1 : DB := ⟨[], [exCounter], [mkWaiting 1 0 1], []⟩

/-- A database whose only service (id 5) uses the display string A. -/
def exDbA : DB := ⟨[⟨5, "A"⟩], [], [], []⟩

/-- A creation request for service 5 at branch 8. -/
def exReq : CreateReq := ⟨5, 8, 0, none, none, none⟩

/-! ### Ordering of the dispatch queue -/

theorem queueBefore_irrefl (t : Ticket) : ¬ queueBefore t t := by
  unfold queueBefore; omega

theorem queueBefore_asymm {u t : Ticket} (h : queueBefore u t) :
    ¬ queueBefore t u := by
  unfold queueBefore at h ⊢; omega

theorem queueBefore_resolve {a b c : Ticket} (h1 : ¬ queueBefore a b)
    (h2 : ¬ queueBefore b c) : ¬ queueBefore a c := by
  unfold queueBefore at h1 h2 ⊢; omega

theorem selectNext_eq_none (l : List Ticket) : selectNext l = none ↔ l = [] := by
  cases l with
  | nil => simp [selectNext]
  | cons t ts =>
    simp only [selectNext]
    cases h : selectNext ts with
    | none => simp
    | some u => by_cases hq : queueBefore u t <;> simp [hq]

theorem selectNext_mem : ∀ {l : List Ticket} {t : Ticket},
    selectNext l = some t → t ∈ l := by
  intro l
  induction l with
  | nil => intro t h; simp [selectNext] at h
  | cons a as ih =>
    intro t h
    simp only [selectNext] at h
    cases hs : selectNext as with
    | none =>
      rw [hs] at h
      simp only [Option.some.injEq] at h
      subst h
      exact List.mem_cons_self a as
    | some u =>
      rw [hs] at h
      by_cases hq : queueBefore u a
      · simp only [hq, if_true, Option.some.injEq] at h
        subst h
        exact List.mem_cons_of_mem a (ih hs)
      · simp only [hq, if_false, Option.some.injEq] at h
        subst h
        exact List.mem_cons_self a as

theorem selectNext_best : ∀ {l : List Ticket} {t : Ticket},
    selectNext l = some t → ∀ u ∈ l, ¬ queueBefore u t := by
  intro l
  induction l with
  | nil => intro t h; simp [selectNext] at h
  | cons a as ih =>
    intro t h u hu
    simp only [selectNext] at h
    cases hs : selectNext as with
    | none =>
      rw [hs] at h
      simp only [Option.some.injEq] at h
      subst h
      rcases List.mem_cons.mp hu with rfl | hu2
      · exact queueBefore_irrefl _
      · rw [selectNext_eq_none] at hs
        subst hs
        simp at hu2
    | some b =>
      rw [hs] at h
      by_cases hq : queueBefore b a
      · simp only [hq, if_true, Option.some.injEq] at h
        subst h
        rcases List.mem_cons.mp hu with rfl | hu2
        · exact queueBefore_asymm hq
        · exact ih hs u hu2
      · simp only [hq, if_false, Option.some.injEq] at h
        subst h
        rcases List.mem_cons.mp hu with rfl | hu2
        · exact queueBefore_irrefl _
        · exact queueBefore_resolve (ih hs u hu2) hq

/-! ### The sequence allocator -/

theorem seqKey_ignores_current (sid bid d : Nat) (r : SeqRow) (n : Nat) :
    seqKey sid bid d { r with current_number := n } = seqKey sid bid d r := rfl

theorem find?_append_of_none {α : Type} {p : α → Bool} {l1 l2 : List α}
    (h : l1.find? p = none) : (l1 ++ l2).find? p = l2.find? p := by
  induction l1 with
  | nil => simp
  | cons a l ih =>
    cases hp : p a with
    | true =>
      rw [List.find?_cons_of_pos _ hp] at h
      exact absurd h (by simp)
    | false =>
      rw [List.find?_cons_of_neg _ (by simp [hp])] at h
      rw [List.cons_append, List.find?_cons_of_neg _ (by simp [hp])]
      exact ih h

theorem readSeq_ensure (rows : List SeqRow) (sid bid d : Nat) :
    readSeq (ensureSeqRow rows sid bid d) sid bid d = readSeq rows sid bid d := by
  unfold ensureSeqRow
  by_cases h : rows.any (seqKey sid bid d)
  · simp [h]
  · have hf : rows.find? (seqKey sid bid d) = none := by
      rw [List.find?_eq_none]
      intro x hx hpx
      exact h (List.any_eq_true.mpr ⟨x, hx, hpx⟩)
    simp only [h, if_false, Bool.false_eq_true]
    unfold readSeq
    rw [find?_append_of_none hf, hf]
    have hk : seqKey sid bid d ⟨sid, bid, d, 0⟩ = true := by simp [seqKey]
    rw [List.find?_cons_of_pos _ hk]

theorem readSeq_write_of_any (sid bid d : Nat) :
    ∀ (rows : List SeqRow) (n : Nat), rows.any (seqKey sid bid d) = true →
    readSeq (writeSeq rows sid bid d n) sid bid d = n := by
  intro rows
  induction rows with
  | nil => intro n h; simp at h
  | cons r l ih =>
    intro n h
    cases hk : seqKey sid bid d r with
    | true =>
      have hk2 : seqKey sid bid d { r with current_number := n } = true := by
        rw [seqKey_ignores_current]; exact hk
      simp only [writeSeq, List.map_cons, hk, if_true]
      unfold readSeq
      rw [List.find?_cons_of_pos _ hk2]
    | false =>
      have hl : l.any (seqKey sid bid d) = true := by
        simp only [List.any_cons, hk, Bool.false_or] at h
        exact h
      have hrec := ih n hl
      simp only [writeSeq, List.map_cons, hk, if_false, Bool.false_eq_true] at hrec ⊢
      unfold readSeq at hrec ⊢
      rw [List.find?_cons_of_neg _ (by simp [hk])]
      exact hrec

theorem ensure_any (rows : List SeqRow) (sid bid d : Nat) :
    (ensureSeqRow rows sid bid d).any (seqKey sid bid d) = true := by
  unfold ensureSeqRow
  by_cases h : rows.any (seqKey sid bid d)
  · simp only [h, if_true]
  · simp [h, seqKey]

theorem allocate_next (rows : List SeqRow) (sid bid d : Nat) :
    (allocate rows sid bid d).2 = readSeq rows sid bid d + 1 := by
  unfold allocate
  simp [readSeq_ensure]

theorem allocate_read (rows : List SeqRow) (sid bid d : Nat) :
    readSeq (allocate rows sid bid d).1 sid bid d = readSeq rows sid bid d + 1 := by
  unfold allocate
  simp only
  rw [readSeq_write_of_any sid bid d _ _ (ensure_any rows sid bid d)]
  rw [readSeq_ensure]

theorem allocateN_spec (sid bid d : Nat) : ∀ (n : Nat) (rows : List SeqRow),
    (allocateN sid bid d rows n).2 = List.range' (readSeq rows sid bid d + 1) n ∧
    readSeq (allocateN sid bid d rows n).1 sid bid d =
      readSeq rows sid bid d + n := by
  intro n
  induction n with
  | zero => intro rows; simp [allocateN]
  | succ n ih =>
    intro rows
    obtain ⟨h1, h2⟩ := ih (allocate rows sid bid d).1
    constructor
    · show (allocate rows sid bid d).2 ::
        (allocateN sid bid d (allocate rows sid bid d).1 n).2 = _
      rw [h1, allocate_read, allocate_next]
      rfl
    · show readSeq (allocateN sid bid d (allocate rows sid bid d).1 n).1 sid bid d = _
      rw [h2, allocate_read]
      omega

/-! ### Padding of display numbers -/

theorem padStart3_data (s : String) :
    (padStart3 s).data = List.replicate (3 - s.length) '0' ++ s.data := by
  simp [padStart3]

theorem padStart3_length (s : String) :
    (padStart3 s).length = max 3 s.length := by
  have h1 : (padStart3 s).length = ((padStart3 s).data).length := rfl
  have h2 : s.length = s.data.length := rfl
  rw [h1, padStart3_data]
  simp only [List.length_append, List.length_replicate]
  omega

theorem padStart3_of_long (s : String) (h : 3 ≤ s.length) : padStart3 s = s := by
  have h0 : 3 - s.length = 0 := by omega
  apply String.ext
  rw [padStart3_data, h0]
  simp

/-! ### The dispatcher: single-step facts -/

theorem dispatchUpdate_id (t : Ticket) (cid now : Nat) :
    (dispatchUpdate t cid now).id = t.id := rfl

theorem serveUpd_id (tid0 cid now : Nat) (u : Ticket) :
    (serveUpd tid0 cid now u).id = u.id := by
  unfold serveUpd
  split <;> rfl

theorem serveUpd_of_ne {tid0 : Nat} {u : Ticket} (h : ¬ u.id = tid0)
    (cid now : Nat) : serveUpd tid0 cid now u = u := by
  unfold serveUpd
  rw [if_neg h]

theorem eligible_dispatch (bOpt sidOpt : Option Nat) (t : Ticket)
    (cid now : Nat) : eligible bOpt sidOpt (dispatchUpdate t cid now) = false :=
  rfl

theorem eligible_waiting {bOpt sidOpt : Option Nat} {t : Ticket}
    (h : eligible bOpt sidOpt t = true) : t.status = Status.waiting := by
  unfold eligible at h
  simp only [Bool.and_eq_true, decide_eq_true_eq] at h
  exact h.1.1

theorem ticketIds_map_serve (l : List Ticket) (tid0 cid now : Nat) :
    ticketIds (l.map (serveUpd tid0 cid now)) = ticketIds l := by
  unfold ticketIds
  rw [List.map_map]
  congr 1
  funext u
  exact serveUpd_id tid0 cid now u

theorem eq_of_mem_of_id_eq {l : List Ticket} (hnd : (ticketIds l).Nodup)
    {a b : Ticket} (ha : a ∈ l) (hb : b ∈ l) (h : a.id = b.id) : a = b := by
  unfold ticketIds at hnd
  exact List.inj_on_of_nodup_map hnd ha hb h

theorem filter_map_serve (bOpt sidOpt : Option Nat) (t0 : Ticket)
    (cid now : Nat) : ∀ l : List Ticket,
    (l.map (serveUpd t0.id cid now)).filter (eligible bOpt sidOpt) =
      (l.filter (eligible bOpt sidOpt)).filter
        (fun u => !decide (u.id = t0.id)) := by
  intro l
  induction l with
  | nil => rfl
  | cons a as ih =>
    by_cases hid : a.id = t0.id
    · have h1 : serveUpd t0.id cid now a = dispatchUpdate a cid now := by
        unfold serveUpd
        rw [if_pos hid]
      simp only [List.map_cons, List.filter_cons, h1, eligible_dispatch,
        Bool.false_eq_true, if_false]
      by_cases he : eligible bOpt sidOpt a = true
      · simp [he, hid, ih]
      · simp [he, ih]
    · have h1 : serveUpd t0.id cid now a = a := serveUpd_of_ne hid cid now
      simp only [List.map_cons, List.filter_cons, h1]
      by_cases he : eligible bOpt sidOpt a = true
      · simp [he, hid, ih]
      · simp [he, ih]


theorem map_serve_of_absent (tid0 cid now : Nat) : ∀ l : List Ticket,
    (∀ u ∈ l, ¬ u.id = tid0) → l.map (serveUpd tid0 cid now) = l := by
  intro l
  induction l with
  | nil => intro _; rfl
  | cons a as ih =>
    intro h
    rw [List.map_cons, serveUpd_of_ne (h a (List.mem_cons_self a as)) cid now,
      ih (fun u hu => h u (List.mem_cons_of_mem a hu))]

theorem countP_map_serve (t0 : Ticket) (cid now : Nat) : ∀ l : List Ticket,
    (ticketIds l).Nodup → t0 ∈ l → t0.status = Status.waiting →
    (l.map (serveUpd t0.id cid now)).countP
        (fun t => decide (t.status = Status.serving)) =
      l.countP (fun t => decide (t.status = Status.serving)) + 1 := by
  intro l
  induction l with
  | nil => intro _ h0; simp at h0
  | cons a as ih =>
    intro hnd h0 hw
    unfold ticketIds at hnd
    simp only [List.map_cons, List.nodup_cons] at hnd
    obtain ⟨hna, hnd2⟩ := hnd
    rcases List.mem_cons.mp h0 with rfl | h02
    · have hserve : serveUpd t0.id cid now t0 = dispatchUpdate t0 cid now := by
        unfold serveUpd
        rw [if_pos rfl]
      have htail : as.map (serveUpd t0.id cid now) = as := by
        apply map_serve_of_absent
        intro u hu he
        exact hna (he ▸ List.mem_map_of_mem (fun t => t.id) hu)
      rw [List.map_cons, hserve, htail, List.countP_cons, List.countP_cons]
      simp [dispatchUpdate, hw]
    · have hane : ¬ a.id = t0.id := by
        intro he
        exact hna (he ▸ List.mem_map_of_mem (fun t => t.id) h02)
      rw [List.map_cons, serveUpd_of_ne hane cid now, List.countP_cons,
        List.countP_cons, ih hnd2 h02 hw]
      omega

theorem mem_map_serve_of_not_waiting {l : List Ticket} {t0 t : Ticket}
    (hnd : (ticketIds l).Nodup) (h0 : t0 ∈ l) (hw : t0.status = Status.waiting)
    (ht : t ∈ l) (hts : ¬ t.status = Status.waiting) (cid now : Nat) :
    t ∈ l.map (serveUpd t0.id cid now) := by
  have hne : ¬ t.id = t0.id := by
    intro he
    rw [eq_of_mem_of_id_eq hnd ht h0 he] at hts
    exact hts hw
  have hfix : serveUpd t0.id cid now t = t := serveUpd_of_ne hne cid now
  rw [← hfix]
  exact List.mem_map_of_mem _ ht

theorem length_filter_ne_id (t0 : Ticket) : ∀ l : List Ticket,
    (ticketIds l).Nodup → t0 ∈ l →
    (l.filter (fun u => !decide (u.id = t0.id))).length = l.length - 1 := by
  intro l
  induction l with
  | nil => intro _ h0; simp at h0
  | cons a as ih =>
    intro hnd h0
    unfold ticketIds at hnd
    simp only [List.map_cons, List.nodup_cons] at hnd
    obtain ⟨hna, hnd2⟩ := hnd
    rcases List.mem_cons.mp h0 with rfl | h02
    · have hc : (!decide (t0.id = t0.id)) = false := by simp
      have htail : as.filter (fun u => !decide (u.id = t0.id)) = as := by
        apply List.filter_eq_self.mpr
        intro u hu
        have : ¬ u.id = t0.id := by
          intro he
          exact hna (he ▸ List.mem_map_of_mem (fun t => t.id) hu)
        simp [this]
      rw [List.filter_cons, hc]
      simp [htail]
    · have hane : ¬ a.id = t0.id := by
        intro he
        exact hna (he ▸ List.mem_map_of_mem (fun t => t.id) h02)
      have hlen : 0 < as.length := List.length_pos_of_mem h02
      rw [List.filter_cons]
      have hc : (!decide (a.id = t0.id)) = true := by simp [hane]
      rw [hc]
      simp only [if_true, List.length_cons, ih hnd2 h02]
      omega

theorem not_mem_ids_filter_ne (t0 : Ticket) (l : List Ticket) :
    t0.id ∉ ticketIds (l.filter (fun u => !decide (u.id = t0.id))) := by
  unfold ticketIds
  intro h
  obtain ⟨u, hu, he⟩ := List.mem_map.mp h
  have hp := List.of_mem_filter hu
  simp only [Bool.not_eq_true', decide_eq_false_iff_not] at hp
  exact hp he

theorem ids_filter_subset (p : Ticket → Bool) (l : List Ticket) :
    ∀ i ∈ ticketIds (l.filter p), i ∈ ticketIds l := by
  intro i hi
  unfold ticketIds at hi ⊢
  obtain ⟨u, hu, he⟩ := List.mem_map.mp hi
  exact he ▸ List.mem_map_of_mem _ (List.mem_of_mem_filter hu)

theorem nodup_ids_filter (p : Ticket → Bool) (l : List Ticket)
    (hnd : (ticketIds l).Nodup) : (ticketIds (l.filter p)).Nodup := by
  unfold ticketIds at hnd ⊢
  exact List.Nodup.sublist (List.Sublist.map _ (List.filter_sublist l)) hnd

theorem callNext_of_pool_nil {db : DB} {cid : Nat} {sidOpt : Option Nat}
    (now : Nat) (h : pool db cid sidOpt = []) :
    callNext db cid sidOpt now = (db, none) := by
  unfold callNext
  rw [h]
  rfl

theorem callNext_of_selectNext {db : DB} {cid : Nat} {sidOpt : Option Nat}
    {t0 : Ticket} (now : Nat) (h : selectNext (pool db cid sidOpt) = some t0) :
    callNext db cid sidOpt now =
      ({ db with tickets := db.tickets.map (serveUpd t0.id cid now) },
       some (dispatchUpdate t0 cid now)) := by
  unfold callNext
  rw [h]

theorem pool_tickets_update (db : DB) (cid : Nat) (sidOpt : Option Nat)
    (l : List Ticket) :
    pool { db with tickets := l } cid sidOpt =
      l.filter (eligible (counterBranch db.counters cid) sidOpt) := rfl

theorem pool_after_serve (db : DB) (cid : Nat) (sidOpt : Option Nat)
    (t0 : Ticket) (now : Nat) :
    pool { db with tickets := db.tickets.map (serveUpd t0.id cid now) } cid sidOpt
      = (pool db cid sidOpt).filter (fun u => !decide (u.id = t0.id)) := by
  rw [pool_tickets_update]
  exact filter_map_serve _ _ t0 cid now db.tickets

theorem mem_pool_waiting {db : DB} {cid : Nat} {sidOpt : Option Nat}
    {t : Ticket} (h : t ∈ pool db cid sidOpt) : t.status = Status.waiting := by
  unfold pool at h
  exact eligible_waiting (List.of_mem_filter h)

theorem mem_pool_sub {db : DB} {cid : Nat} {sidOpt : Option Nat} {t : Ticket}
    (h : t ∈ pool db cid sidOpt) : t ∈ db.tickets := by
  unfold pool at h
  exact List.mem_of_mem_filter h

theorem nodup_pool_ids {db : DB} (cid : Nat) (sidOpt : Option Nat)
    (hnd : (ticketIds db.tickets).Nodup) :
    (ticketIds (pool db cid sidOpt)).Nodup :=
  nodup_ids_filter _ _ hnd

/-- One dispatch step on a nonempty pool: the selected ticket is a waiting
member of the pool, the response carries its dispatched image, all other
tables and all ticket ids are untouched, the pool loses exactly that
ticket, and the serving count rises by one. -/
theorem callNext_step {db : DB} {cid : Nat} {sidOpt : Option Nat} {now : Nat}
    (hnd : (ticketIds db.tickets).Nodup) (hne : pool db cid sidOpt ≠ []) :
    ∃ t0 : Ticket,
      t0 ∈ pool db cid sidOpt ∧
      t0.status = Status.waiting ∧
      (callNext db cid sidOpt now).2 = some (dispatchUpdate t0 cid now) ∧
      (callNext db cid sidOpt now).1.services = db.services ∧
      (callNext db cid sidOpt now).1.counters = db.counters ∧
      (callNext db cid sidOpt now).1.sequences = db.sequences ∧
      ticketIds (callNext db cid sidOpt now).1.tickets =
        ticketIds db.tickets ∧
      pool (callNext db cid sidOpt now).1 cid sidOpt =
        (pool db cid sidOpt).filter (fun u => !decide (u.id = t0.id)) ∧
      (pool (callNext db cid sidOpt now).1 cid sidOpt).length =
        (pool db cid sidOpt).length - 1 ∧
      servingCount (callNext db cid sidOpt now).1 = servingCount db + 1 := by
  obtain ⟨t0, hsel⟩ : ∃ t0, selectNext (pool db cid sidOpt) = some t0 := by
    cases hs : selectNext (pool db cid sidOpt) with
    | none => exact absurd ((selectNext_eq_none _).mp hs) hne
    | some u => exact ⟨u, rfl⟩
  have hmem := selectNext_mem hsel
  have hwait := mem_pool_waiting hmem
  have heq := callNext_of_selectNext now hsel
  refine ⟨t0, hmem, hwait, ?_, ?_, ?_, ?_, ?_, ?_, ?_, ?_⟩
  · rw [heq]
  · rw [heq]
  · rw [heq]
  · rw [heq]
  · rw [heq]
    exact ticketIds_map_serve db.tickets t0.id cid now
  · rw [heq]
    exact pool_after_serve db cid sidOpt t0 now
  · rw [heq, pool_after_serve db cid sidOpt t0 now]
    exact length_filter_ne_id t0 (pool db cid sidOpt)
      (nodup_pool_ids cid sidOpt hnd) hmem
  · rw [heq]
    unfold servingCount
    exact countP_map_serve t0 cid now db.tickets hnd (mem_pool_sub hmem) hwait

theorem resultIds_cons_some (t : Ticket) (rs : List (Option Ticket)) :
    resultIds (some t :: rs) = t.id :: resultIds rs := rfl

theorem resultIds_cons_none (rs : List (Option Ticket)) :
    resultIds (none :: rs) = resultIds rs := rfl

theorem callNextN_unfold_fst (cid : Nat) (sidOpt : Option Nat) (now : Nat)
    (db : DB) (n : Nat) :
    (callNextN cid sidOpt now db (n + 1)).1 =
      (callNextN cid sidOpt now (callNext db cid sidOpt now).1 n).1 := rfl

theorem callNextN_unfold_snd (cid : Nat) (sidOpt : Option Nat) (now : Nat)
    (db : DB) (n : Nat) :
    (callNextN cid sidOpt now db (n + 1)).2 =
      (callNext db cid sidOpt now).2 ::
        (callNextN cid sidOpt now (callNext db cid sidOpt now).1 n).2 := rfl

/-- Serialized execution of `n` call-next requests: the other tables and
the ticket ids are untouched, `min n K` of the requests are answered with
pairwise distinct tickets drawn from the initial pool (`K` its size), the
rest observe an empty queue, the pool shrinks accordingly and exactly that
many tickets move to `serving`. -/
theorem callNextN_spec (cid : Nat) (sidOpt : Option Nat) (now : Nat) :
    ∀ (n : Nat) (db : DB), (ticketIds db.tickets).Nodup →
    (callNextN cid sidOpt now db n).1.services = db.services ∧
    (callNextN cid sidOpt now db n).1.counters = db.counters ∧
    (callNextN cid sidOpt now db n).1.sequences = db.sequences ∧
    ticketIds (callNextN cid sidOpt now db n).1.tickets =
      ticketIds db.tickets ∧
    (callNextN cid sidOpt now db n).2.length = n ∧
    (callNextN cid sidOpt now db n).2.countP Option.isSome =
      min n (pool db cid sidOpt).length ∧
    (pool (callNextN cid sidOpt now db n).1 cid sidOpt).length =
      (pool db cid sidOpt).length - n ∧
    servingCount (callNextN cid sidOpt now db n).1 =
      servingCount db + min n (pool db cid sidOpt).length ∧
    (∀ i ∈ ticketIds (pool (callNextN cid sidOpt now db n).1 cid sidOpt),
      i ∈ ticketIds (pool db cid sidOpt)) ∧
    (resultIds (callNextN cid sidOpt now db n).2).Nodup ∧
    (∀ i ∈ resultIds (callNextN cid sidOpt now db n).2,
      i ∈ ticketIds (pool db cid sidOpt) ∧
      i ∉ ticketIds (pool (callNextN cid sidOpt now db n).1 cid sidOpt)) := by
  intro n
  induction n with
  | zero =>
    intro db hnd
    refine ⟨rfl, rfl, rfl, rfl, rfl, by simp [callNextN], by simp [callNextN],
      by simp [callNextN], ?_, ?_, ?_⟩
    · intro i hi; exact hi
    · simp [callNextN, resultIds]
    · intro i hi; simp [callNextN, resultIds] at hi
  | succ n ih =>
    intro db hnd
    by_cases hpool : pool db cid sidOpt = []
    · have hcn := callNext_of_pool_nil now hpool
      have hu1 := callNextN_unfold_fst cid sidOpt now db n
      have hu2 := callNextN_unfold_snd cid sidOpt now db n
      rw [hcn] at hu1 hu2
      obtain ⟨i1, i2, i3, i4, i5, i6, i7, i8, i9, i10, i11⟩ := ih db hnd
      have hK : (pool db cid sidOpt).length = 0 := by rw [hpool]; rfl
      refine ⟨by rw [hu1]; exact i1, by rw [hu1]; exact i2,
        by rw [hu1]; exact i3, by rw [hu1]; exact i4,
        by rw [hu2]; simp [i5], ?_, ?_, ?_, ?_, ?_, ?_⟩
      · rw [hu2, List.countP_cons]
        simp only [Option.isSome_none, Bool.false_eq_true, if_false, add_zero]
        rw [i6]
        omega
      · rw [hu1, i7]
        omega
      · rw [hu1, i8]
        omega
      · rw [hu1]
        exact i9
      · rw [hu2, resultIds_cons_none]
        exact i10
      · rw [hu2, resultIds_cons_none, hu1]
        exact i11
    · obtain ⟨t0, s1, s2, s3, s4, s5, s6, s7, s8, s9, s10⟩ :=
        @callNext_step db cid sidOpt now hnd hpool
      have hnd1 : (ticketIds (callNext db cid sidOpt now).1.tickets).Nodup := by
        rw [s7]; exact hnd
      obtain ⟨j1, j2, j3, j4, j5, j6, j7, j8, j9, j10, j11⟩ :=
        ih (callNext db cid sidOpt now).1 hnd1
      have hu1 := callNextN_unfold_fst cid sidOpt now db n
      have hu2 := callNextN_unfold_snd cid sidOpt now db n
      have hKpos : 0 < (pool db cid sidOpt).length :=
        List.length_pos_of_mem s1
      have hnotmem : t0.id ∉
          ticketIds (pool (callNext db cid sidOpt now).1 cid sidOpt) := by
        rw [s8]
        exact not_mem_ids_filter_ne t0 (pool db cid sidOpt)
      have hsub1 : ∀ i ∈
          ticketIds (pool (callNext db cid sidOpt now).1 cid sidOpt),
          i ∈ ticketIds (pool db cid sidOpt) := by
        intro i hi
        rw [s8] at hi
        exact ids_filter_subset _ _ i hi
      refine ⟨by rw [hu1, j1, s4], by rw [hu1, j2, s5], by rw [hu1, j3, s6],
        by rw [hu1, j4, s7], by rw [hu2]; simp [j5], ?_, ?_, ?_, ?_, ?_, ?_⟩
      · rw [hu2, List.countP_cons, s3]
        simp only [Option.isSome_some, if_true]
        rw [j6, s9]
        omega
      · rw [hu1, j7, s9]
        omega
      · rw [hu1, j8, s10, s9]
        omega
      · intro i hi
        rw [hu1] at hi
        exact hsub1 i (j9 i hi)
      · rw [hu2, s3, resultIds_cons_some, dispatchUpdate_id]
        refine List.nodup_cons.mpr ⟨?_, j10⟩
        intro hc
        exact hnotmem (j11 t0.id hc).1
      · intro i hi
        rw [hu2, s3, resultIds_cons_some, dispatchUpdate_id] at hi
        rw [hu1]
        rcases List.mem_cons.mp hi with rfl | hi2
        · constructor
          · exact List.mem_map_of_mem (fun t => t.id) s1
          · intro hc
            exact hnotmem (j9 _ hc)
        · obtain ⟨hin, hout⟩ := j11 i hi2
          exact ⟨hsub1 i hin, hout⟩

/-! ### Claims -/

/-- C1: for every (service_id, branch_id, date) key the counter starts at 0
implicitly and the first issued ticket gets 1; each allocation stores
current + 1 and uses that value, the stored counter never decreases, and
issuing N tickets for the key yields the N distinct, gapless sequence
numbers 1..N with no duplicates and no gaps. -/
theorem c1_sequence_gapless (rows : List SeqRow) (sid bid d N : Nat)
    (h : readSeq rows sid bid d = 0) :
    (∀ rows' : List SeqRow,
      (allocate rows' sid bid d).2 = readSeq rows' sid bid d + 1 ∧
      readSeq (allocate rows' sid bid d).1 sid bid d =
        readSeq rows' sid bid d + 1) ∧
    (∀ (db : DB) (req : CreateReq) (today tid now : Nat) (iss : Option Nat),
      (createTicket db req today tid now iss).1.sequences =
        (allocate db.sequences req.service_id req.branch_id today).1) ∧
    (allocateN sid bid d rows N).2 = List.range' 1 N ∧
    ((allocateN sid bid d rows N).2).Nodup ∧
    readSeq (allocateN sid bid d rows N).1 sid bid d = N := by
  have hs := allocateN_spec sid bid d N rows
  rw [h] at hs
  obtain ⟨hs1, hs2⟩ := hs
  refine ⟨fun rows' =>
      ⟨allocate_next rows' sid bid d, allocate_read rows' sid bid d⟩,
    fun db req today tid now iss => rfl, ?_, ?_, ?_⟩
  · simpa using hs1
  · rw [show (allocateN sid bid d rows N).2 = List.range' 1 N by simpa using hs1]
    exact List.nodup_range' 1 N
  · simpa using hs2

/-- C1 witness: three allocations on a fresh key yield 1, 2, 3. -/
theorem c1_witness :
    readSeq [] 1 2 3 = 0 ∧ (allocateN 1 2 3 [] 3).2 = List.range' 1 3 :=
  ⟨rfl, (c1_sequence_gapless [] 1 2 3 3 rfl).2.2.1⟩

/-- C3: a failed ticket insert rolls the whole transaction back — the
sequence table and the ticket table are exactly as before the attempt, no
ticket is returned, and re-running creation behaves exactly as if the
failed attempt never happened, allocating the same next number
current + 1. -/
theorem c3_rollback_atomic (db : DB) (req : CreateReq)
    (today tid now tid2 now2 : Nat) (iss : Option Nat) :
    createTicketAttempt db req today tid now iss false = (db, none) ∧
    (createTicketAttempt db req today tid now iss false).1.sequences =
      db.sequences ∧
    (createTicketAttempt db req today tid now iss false).1.tickets =
      db.tickets ∧
    createTicket (createTicketAttempt db req today tid now iss false).1 req
        today tid2 now2 iss =
      createTicket db req today tid2 now2 iss ∧
    (createTicket db req today tid2 now2 iss).2.ticket_number =
      formatTicketNumber (lookupPrefix db.services req.service_id)
        (readSeq db.sequences req.service_id req.branch_id today + 1) := by
  refine ⟨rfl, rfl, rfl, rfl, ?_⟩
  show formatTicketNumber (lookupPrefix db.services req.service_id)
      (allocate db.sequences req.service_id req.branch_id today).2 = _
  rw [allocate_next]

/-- C6: when no waiting ticket matches the branch and service filter, the
call-next handler leaves the database untouched and answers HTTP 200 with
ticket null and the message No tickets in queue — a normal outcome, not an
error status. -/
theorem c6_empty_queue (db : DB) (cid : Nat) (sidOpt : Option Nat) (now : Nat)
    (h : pool db cid sidOpt = []) :
    callNextHandler db (some cid) sidOpt now =
      (db, ⟨200, none, some "No tickets in queue"⟩) := by
  have hcn : callNext db cid sidOpt now = (db, none) :=
    callNext_of_pool_nil now h
  simp only [callNextHandler, hcn]

/-- C6 witness: an empty branch queue answers 200 with a null ticket. -/
theorem c6_witness :
    pool exDbEmptyQ 1 none = [] ∧
    callNextHandler exDbEmptyQ (some 1) none 10 =
      (exDbEmptyQ, ⟨200, none, some "No tickets in queue"⟩) :=
  ⟨by decide, c6_empty_queue exDbEmptyQ 1 none 10 (by decide)⟩

/-- C9: when the service lookup misses, ticket creation does not error: the
display string falls back to TKT, the ticket row is still inserted with
status waiting, and its number is TKT dash the padded next value. -/
theorem c9_prefix_fallback (db : DB) (req : CreateReq) (today tid now : Nat)
    (iss : Option Nat)
    (h : db.services.find? (fun s => decide (s.id = req.service_id)) = none) :
    lookupPrefix db.services req.service_id = "TKT" ∧
    (createTicket db req today tid now iss).1.tickets =
      db.tickets ++ [(createTicket db req today tid now iss).2] ∧
    (createTicket db req today tid now iss).2.status = Status.waiting ∧
    (createTicket db req today tid now iss).2.ticket_number =
      formatTicketNumber "TKT"
        (readSeq db.sequences req.service_id req.branch_id today + 1) := by
  have hl : lookupPrefix db.services req.service_id = "TKT" := by
    unfold lookupPrefix
    rw [h]
  refine ⟨hl, rfl, rfl, ?_⟩
  show formatTicketNumber (lookupPrefix db.services req.service_id)
      (allocate db.sequences req.service_id req.branch_id today).2 = _
  rw [hl, allocate_next]

/-- C9 witness: creating against an empty service table uses TKT. -/
theorem c9_witness :
    exDbEmptyQ.services.find? (fun s => decide (s.id = exReq.service_id)) =
      none ∧
    lookupPrefix exDbEmptyQ.services exReq.service_id = "TKT" :=
  ⟨by decide, (c9_prefix_fallback exDbEmptyQ exReq 0 1 10 none (by decide)).1⟩

/-- C10: a call-next request whose counter_id matches no counter row does
not fail with a not-found error: the branch subquery is NULL, no waiting
ticket matches, and the handler answers 200 with ticket null exactly as
for an empty queue, leaving the database untouched. -/
theorem c10_missing_counter (db : DB) (cid : Nat) (sidOpt : Option Nat)
    (now : Nat)
    (h : db.counters.find? (fun c => decide (c.id = cid)) = none) :
    callNextHandler db (some cid) sidOpt now =
      (db, ⟨200, none, some "No tickets in queue"⟩) := by
  have hb : counterBranch db.counters cid = none := by
    unfold counterBranch
    rw [h]
    rfl
  have hpool : pool db cid sidOpt = [] := by
    unfold pool
    rw [hb]
    apply List.filter_eq_nil_iff.mpr
    intro t _
    simp [eligible]
  have hcn : callNext db cid sidOpt now = (db, none) :=
    callNext_of_pool_nil now hpool
  simp only [callNextHandler, hcn]

/-- C10 witness: a dangling counter id behaves as an empty queue even with
a waiting ticket present. -/
theorem c10_witness :
    exDbNoCtr.counters.find? (fun c => decide (c.id = 1)) = none ∧
    (∃ t ∈ exDbNoCtr.tickets, t.status = Status.waiting) ∧
    callNextHandler exDbNoCtr (some 1) none 10 =
      (exDbNoCtr, ⟨200, none, some "No tickets in queue"⟩) :=
  ⟨by decide, ⟨mkWaiting 1 0 1, by decide, rfl⟩,
    c10_missing_counter exDbNoCtr 1 none 10 (by decide)⟩

/-- C2: for a fixed (branch, service-filter) pool with K waiting tickets,
K + M serialized call-next transactions (the order the head-of-queue row
lock admits them) dispatch exactly K tickets to serving, each request a
distinct ticket, and the remaining M requests observe an empty queue. -/
theorem c2_no_double_dispatch (db : DB) (cid : Nat) (sidOpt : Option Nat)
    (now K M : Nat) (hnd : (ticketIds db.tickets).Nodup)
    (hK : (pool db cid sidOpt).length = K) (hM : 0 < M) :
    (callNextN cid sidOpt now db (K + M)).2.countP Option.isSome = K ∧
    (callNextN cid sidOpt now db (K + M)).2.countP Option.isNone = M ∧
    (resultIds (callNextN cid sidOpt now db (K + M)).2).Nodup ∧
    servingCount (callNextN cid sidOpt now db (K + M)).1 =
      servingCount db + K ∧
    (pool (callNextN cid sidOpt now db (K + M)).1 cid sidOpt).length = 0 := by
  obtain ⟨_, _, _, _, h5, h6, h7, h8, _, h10, _⟩ :=
    callNextN_spec cid sidOpt now (K + M) db hnd
  rw [hK] at h6 h7 h8
  have hlen : (callNextN cid sidOpt now db (K + M)).2.length =
      (callNextN cid sidOpt now db (K + M)).2.countP Option.isSome +
        (callNextN cid sidOpt now db (K + M)).2.countP Option.isNone := by
    rw [List.length_eq_countP_add_countP Option.isSome
      (callNextN cid sidOpt now db (K + M)).2]
    congr 1
    apply List.countP_congr
    intro a _
    cases a <;> rfl
  refine ⟨by omega, by omega, h10, by omega, by omega⟩

/-- C2 witness: one waiting ticket, two requests — one dispatch, one empty
answer, one ticket moved to serving. -/
theorem c2_witness :
    (ticketIds exDb1.tickets).Nodup ∧ (pool exDb1 1 none).length = 1 ∧
    0 < 1 ∧ (callNextN 1 none 10 exDb1 2).2.countP Option.isSome = 1 :=
  ⟨by decide, by decide, by decide,
    (c2_no_double_dispatch exDb1 1 none 10 1 1 (by decide) (by decide)
      (by decide)).1⟩

/-- C4: a dispatched ticket is the image of a waiting ticket of the pool
that no other eligible ticket beats under ORDER BY priority_level DESC,
created_at ASC: every other eligible ticket has lower priority, or equal
priority and a created_at no older. -/
theorem c4_priority_order (db : DB) (cid : Nat) (sidOpt : Option Nat)
    (now : Nat) (t : Ticket)
    (h : (callNext db cid sidOpt now).2 = some t) :
    ∃ t0 ∈ db.tickets,
      t = dispatchUpdate t0 cid now ∧
      eligible (counterBranch db.counters cid) sidOpt t0 = true ∧
      ∀ u ∈ db.tickets,
        eligible (counterBranch db.counters cid) sidOpt u = true →
        u.priority_level < t0.priority_level ∨
          (u.priority_level = t0.priority_level ∧
            t0.created_at ≤ u.created_at) := by
  cases hs : selectNext (pool db cid sidOpt) with
  | none =>
    rw [callNext_of_pool_nil now ((selectNext_eq_none _).mp hs)] at h
    simp at h
  | some t0 =>
    rw [callNext_of_selectNext now hs] at h
    simp only [Option.some.injEq] at h
    subst h
    have hmem := selectNext_mem hs
    have hbest := selectNext_best hs
    refine ⟨t0, mem_pool_sub hmem, rfl, List.of_mem_filter hmem, ?_⟩
    intro u hu he
    have humem : u ∈ pool db cid sidOpt := List.mem_filter.mpr ⟨hu, he⟩
    have hnb := hbest u humem
    unfold queueBefore at hnb
    omega

/-- C4 witness: with priorities 0, 0, 2 created at 1 < 2 < 3, the first
call-next dispatches the priority-2 ticket. -/
theorem c4_witness :
    ∃ t0 ∈ exDb3.tickets,
      dispatchUpdate (mkWaiting 3 2 3) 1 10 = dispatchUpdate t0 1 10 ∧
      eligible (counterBranch exDb3.counters 1) none t0 = true ∧
      ∀ u ∈ exDb3.tickets,
        eligible (counterBranch exDb3.counters 1) none u = true →
        u.priority_level < t0.priority_level ∨
          (u.priority_level = t0.priority_level ∧
            t0.created_at ≤ u.created_at) :=
  c4_priority_order exDb3 1 none 10 (dispatchUpdate (mkWaiting 3 2 3) 1 10)
    (by decide)

/-- C7: the display number is the service string, a dash and the padded
decimal value; padding is a minimum width of 3 and never truncates — the
padded data is the original digits behind 3 minus length leading zeros, so
values of four or more digits are rendered whole — and the first three
tickets of service A are A-001, A-002, A-003 in creation order. -/
theorem c7_number_format :
    (∀ s : String, (padStart3 s).data =
      List.replicate (3 - s.length) '0' ++ s.data) ∧
    (∀ s : String, (padStart3 s).length = max 3 s.length) ∧
    (∀ s : String, 3 ≤ s.length → padStart3 s = s) ∧
    (∀ (p : String) (n : Nat),
      formatTicketNumber p n = p ++ "-" ++ padStart3 (toString n)) ∧
    formatTicketNumber "A" 1234 = "A-1234" ∧
    ((createTicketsN exReq 0 none exDbA [(1, 10), (2, 11), (3, 12)]).2.map
      (fun t => t.ticket_number)) = ["A-001", "A-002", "A-003"] := by
  refine ⟨padStart3_data, padStart3_length, padStart3_of_long,
    fun p n => rfl, by decide, by decide⟩

/-- C7 witness: a four-digit value is not truncated by the padding. -/
theorem c7_witness : 3 ≤ ("1234" : String).length ∧ padStart3 "1234" = "1234" :=
  ⟨by decide, c7_number_format.2.2.1 "1234" (by decide)⟩

/-- C5 counterexample: the status patch applies any supplied status without
checking the current one, so patching a done ticket with status waiting
mutates it back to waiting — a code path out of a terminal state. -/
theorem c5_counterexample :
    exDbDone.tickets.map (fun t => t.status) = [Status.done] ∧
    ((patchTicket exDbDone 1 ⟨some Status.waiting, none, none⟩ 7 99).1.tickets.map
      (fun t => t.status)) = [Status.waiting] := by
  decide

/-- C5 amended: the dispatcher never mutates a terminal ticket (call-next
only touches the selected waiting ticket), and the delete endpoint never
produces a waiting or serving row — every row it yields is either set to
cancelled or left exactly as it was, and a terminal row stays terminal;
the status patch endpoint, however, applies whatever status the request
supplies unconditionally, so it can move a terminal ticket back to
waiting or serving. -/
theorem c5_terminal_amended (db : DB) (cid tid now : Nat) (sidOpt : Option Nat)
    (hnd : (ticketIds db.tickets).Nodup) :
    (∀ t ∈ db.tickets, isTerminal t.status = true →
      t ∈ (callNext db cid sidOpt now).1.tickets) ∧
    (∀ t2 ∈ (deleteTicket db tid now).1.tickets,
      t2.status = Status.cancelled ∨ t2 ∈ db.tickets) ∧
    (∀ t ∈ db.tickets, isTerminal t.status = true →
      ∃ t2 ∈ (deleteTicket db tid now).1.tickets,
        t2.id = t.id ∧ isTerminal t2.status = true) ∧
    (∀ (t : Ticket) (req : PatchReq) (uid n2 : Nat),
      (applyPatch req uid n2 t).status = req.status.getD t.status) := by
  refine ⟨?_, ?_, ?_, ?_⟩
  · intro t ht hterm
    have hts : ¬ t.status = Status.waiting := by
      intro he
      rw [he] at hterm
      exact Bool.noConfusion hterm
    cases hs : selectNext (pool db cid sidOpt) with
    | none =>
      rw [callNext_of_pool_nil now ((selectNext_eq_none _).mp hs)]
      exact ht
    | some t0 =>
      rw [callNext_of_selectNext now hs]
      exact mem_map_serve_of_not_waiting hnd (mem_pool_sub (selectNext_mem hs))
        (mem_pool_waiting (selectNext_mem hs)) ht hts cid now
  · intro t2 ht2
    unfold deleteTicket at ht2
    by_cases hany : db.tickets.any (fun t => decide (t.id = tid)) = true
    · simp only [hany, if_true] at ht2
      obtain ⟨u, hu, he⟩ := List.mem_map.mp ht2
      by_cases hid : u.id = tid
      · left
        rw [← he]
        simp [hid]
      · right
        rw [← he]
        simp only [hid, if_false]
        exact hu
    · simp only [hany, if_false, Bool.false_eq_true] at ht2
      exact Or.inr ht2
  · intro t ht hterm
    unfold deleteTicket
    by_cases hany : db.tickets.any (fun t => decide (t.id = tid)) = true
    · simp only [hany, if_true]
      by_cases hid : t.id = tid
      · refine ⟨{ t with status := Status.cancelled, ended_at := some now },
          ?_, rfl, rfl⟩
        have himg : (fun u => if u.id = tid then
            { u with status := Status.cancelled, ended_at := some now }
          else u) t =
            { t with status := Status.cancelled, ended_at := some now } := by
          simp [hid]
        rw [← himg]
        exact List.mem_map_of_mem _ ht
      · refine ⟨t, ?_, rfl, hterm⟩
        have himg : (fun u => if u.id = tid then
            { u with status := Status.cancelled, ended_at := some now }
          else u) t = t := by
          simp [hid]
        rw [← himg]
        exact List.mem_map_of_mem _ ht
    · simp only [hany, if_false, Bool.false_eq_true]
      exact ⟨t, ht, rfl, hterm⟩
  · intro t req uid n2
    rcases req with ⟨st, c, nt⟩
    cases st with
    | none => cases c <;> cases nt <;> rfl
    | some s => cases s <;> cases c <;> cases nt <;> rfl

/-- C5 witness: a done ticket survives a call-next pass untouched. -/
theorem c5_witness :
    (ticketIds exDbDone.tickets).Nodup ∧
    (∀ t ∈ exDbDone.tickets, isTerminal t.status = true →
      t ∈ (callNext exDbDone 1 none 10).1.tickets) :=
  ⟨by decide, (c5_terminal_amended exDbDone 1 1 10 none (by decide)).1⟩

/-- C8: a dispatch updates exactly status (to serving), counter_id,
called_at and started_at (to now) of the selected ticket: the new ticket
table is the old one with only rows of the selected id rewritten by
dispatchUpdate, and dispatchUpdate preserves every other column — id,
ticket_number, service_id, branch_id, priority_level, created_at, the
customer fields, notes, served_by, ended_at and issued_by. -/
theorem c8_dispatch_frame (db : DB) (cid : Nat) (sidOpt : Option Nat)
    (now : Nat) (t : Ticket)
    (h : (callNext db cid sidOpt now).2 = some t) :
    (∃ t0 ∈ db.tickets, t = dispatchUpdate t0 cid now ∧
      (callNext db cid sidOpt now).1.tickets =
        db.tickets.map (serveUpd t0.id cid now)) ∧
    (∀ u : Ticket,
      (dispatchUpdate u cid now).status = Status.serving ∧
      (dispatchUpdate u cid now).counter_id = some cid ∧
      (dispatchUpdate u cid now).called_at = some now ∧
      (dispatchUpdate u cid now).started_at = some now ∧
      (dispatchUpdate u cid now).id = u.id ∧
      (dispatchUpdate u cid now).ticket_number = u.ticket_number ∧
      (dispatchUpdate u cid now).service_id = u.service_id ∧
      (dispatchUpdate u cid now).branch_id = u.branch_id ∧
      (dispatchUpdate u cid now).priority_level = u.priority_level ∧
      (dispatchUpdate u cid now).created_at = u.created_at ∧
      (dispatchUpdate u cid now).customer_name = u.customer_name ∧
      (dispatchUpdate u cid now).customer_phone = u.customer_phone ∧
      (dispatchUpdate u cid now).notes = u.notes ∧
      (dispatchUpdate u cid now).served_by = u.served_by ∧
      (dispatchUpdate u cid now).ended_at = u.ended_at ∧
      (dispatchUpdate u cid now).issued_by = u.issued_by) ∧
    (∀ (tid0 : Nat) (u : Ticket),
      (u.id = tid0 → serveUpd tid0 cid now u = dispatchUpdate u cid now) ∧
      (¬ u.id = tid0 → serveUpd tid0 cid now u = u)) := by
  refine ⟨?_, fun u => ⟨rfl, rfl, rfl, rfl, rfl, rfl, rfl, rfl, rfl, rfl,
      rfl, rfl, rfl, rfl, rfl, rfl⟩,
    fun tid0 u => ⟨fun he => by unfold serveUpd; rw [if_pos he],
      fun he => by unfold serveUpd; rw [if_neg he]⟩⟩
  cases hs : selectNext (pool db cid sidOpt) with
  | none =>
    rw [callNext_of_pool_nil now ((selectNext_eq_none _).mp hs)] at h
    simp at h
  | some t0 =>
    rw [callNext_of_selectNext now hs] at h ⊢
    simp only [Option.some.injEq] at h
    exact ⟨t0, mem_pool_sub (selectNext_mem hs), h.symm, rfl⟩

/-- C8 witness: dispatching the priority-2 ticket rewrites only its own
row in the ticket table. -/
theorem c8_witness :
    ∃ t0 ∈ exDb3.tickets,
      dispatchUpdate (mkWaiting 3 2 3) 1 10 = dispatchUpdate t0 1 10 ∧
      (callNext exDb3 1 none 10).1.tickets =
        exDb3.tickets.map (serveUpd t0.id 1 10) :=
  (c8_dispatch_frame exDb3 1 none 10 (dispatchUpdate (mkWaiting 3 2 3) 1 10)
    (by decide)).1
